import Mathlib

/-!
Verification development for the `node-class-vs-factory` repository.

JavaScript numbers are modelled as exact rationals (`ℚ`); the idealization
replaces IEEE-754 double rounding by exact arithmetic.  32-bit integer
coercions (`| 0`, `>>> 0`, `Math.imul`, shifts, xor) are modelled exactly on
bit patterns: an unsigned 32-bit pattern is a `Nat` below 2^32, and signed
readings go through `int32ofPat`.  `Math.sqrt` is an external runtime
function and is passed as an explicit parameter `sf : ℚ → ℚ` to the one
operation that uses it.  `Date.now()` is an external clock read; the value it
returns at construction time is passed as an explicit parameter.
-/

/-- Truncation toward zero of a rational, as JavaScript `ToInt32` truncates. -/
def ratTrunc (q : ℚ) : Int := if 0 ≤ q then Rat.floor q else -(Rat.floor (-q))

/-- JavaScript `x | 0` on a number: truncate toward zero, reduce mod 2^32,
interpret as a signed 32-bit integer. -/
def toInt32 (q : ℚ) : Int :=
  let m := (ratTrunc q) % 4294967296
  if m < 2147483648 then m else m - 4294967296

/-- Unsigned 32-bit pattern of an integer (JavaScript `ToUint32`). -/
def u32ofInt (x : Int) : Nat := (x % 4294967296).toNat

/-- Signed reading of an unsigned 32-bit pattern. -/
def int32ofPat (n : Nat) : Int :=
  if n < 2147483648 then (n : Int) else (n : Int) - 4294967296

/-- JavaScript `Math.imul` on 32-bit patterns. -/
def imul32 (a b : Nat) : Nat := (a * b) % 4294967296

/-- JavaScript `<<` on a 32-bit pattern (result kept as a pattern). -/
def shl32 (n k : Nat) : Nat := (n <<< k) % 4294967296

/-- One xorshift32 round, exactly the three-line body
`x ^= x << 13; x ^= x >>> 17; x ^= x << 5; x |= 0` shared by every
pseudo-random loop in the repository. -/
def xsRound (x : Nat) : Nat :=
  let x := x ^^^ (shl32 x 13)
  let x := x ^^^ (x >>> 17)
  x ^^^ (shl32 x 5)

/-- Decimal digits of `k` left-padded with zeros to width 6, for the
fractional part of `toFixed(6)`. -/
def pad6 (k : Nat) : String :=
  let s := toString k
  String.mk (List.replicate (6 - s.length) '0') ++ s

/-- JavaScript `Number.prototype.toFixed(6)` on the exact-rational model:
round the magnitude half away from zero at the sixth decimal and print the
sign, integer part and six fraction digits. -/
def toFixed6 (q : ℚ) : String :=
  let m : ℚ := if q < 0 then -q else q
  let n : Nat := (Rat.floor (m * 1000000 + 1/2)).toNat
  (if q < 0 then "-" else "") ++ toString (n / 1000000) ++ "." ++ pad6 (n % 1000000)

/-- JavaScript `i.toString(16)` for a natural number (lowercase hex). -/
def natToHex (n : Nat) : String := String.mk (Nat.toDigits 16 n)

/-- JavaScript `i.toString(16).padStart(2, "0")` used for summary line
indices. -/
def hex2 (n : Nat) : String :=
  let s := natToHex n
  String.mk (List.replicate (2 - s.length) '0') ++ s

/-- State record of the thin-wrapper strategy (`ThinState` in
`heavyLogic`): id, name, values, bias, scale, createdAt, tag. -/
structure ThinState where
  id : Int
  name : String
  values : List ℚ
  bias : ℚ
  scale : ℚ
  createdAt : Int
  tag : String

/-- Shared folds of `normalizeInPlace`: sum of the values. -/
def sumOf (l : List ℚ) : ℚ := l.foldl (· + ·) 0

/-- Mean as computed by the kernel: `length > 0 ? sum / length : 0`. -/
def meanOf (l : List ℚ) : ℚ :=
  if 0 < l.length then sumOf l / (l.length : ℚ) else 0

/-- Sum of squared deviations from `mean`. -/
def sqDevOf (l : List ℚ) (mean : ℚ) : ℚ :=
  l.foldl (fun sq v => sq + (v - mean) * (v - mean)) 0

/-- Sample variance: `length > 1 ? sq / (length - 1) : 0`. -/
def varianceOf (l : List ℚ) : ℚ :=
  if 1 < l.length then sqDevOf l (meanOf l) / ((l.length - 1 : Nat) : ℚ) else 0

/-- Standard deviation guard: `variance > 0 ? sqrt(variance) : 1`, with the
runtime square root passed in as `sf`. -/
def stdOf (sf : ℚ → ℚ) (l : List ℚ) : ℚ :=
  if 0 < varianceOf l then sf (varianceOf l) else 1

/-- Transcription of `doChecksum` (heavyLogic).  The local `running`
accumulator of the source is dead code (it is never read) and is omitted. -/
def doChecksum (s : ThinState) : Int :=
  let hash : Nat := 2166136261
  let hash := s.values.foldl (fun hash raw =>
    let transformed : ℚ := raw * s.scale + s.bias
    let hash := hash ^^^ (u32ofInt (toInt32 (transformed * 1000003)))
    imul32 hash 16777619) hash
  let hash := imul32 (hash ^^^ u32ofInt s.id) 16777619
  let hash := imul32 (hash ^^^ u32ofInt (s.name.length : Int)) 16777619
  let ts := u32ofInt s.createdAt
  let hash := imul32 (hash ^^^ ts) 2246822519
  let hash := s.tag.data.foldl (fun hash c =>
    let hash := hash ^^^ (u32ofInt (c.toNat : Int))
    let hash := u32ofInt ((hash : Int) + int32ofPat (shl32 hash 13))
    hash ^^^ (hash >>> 7)) hash
  let hash := hash ^^^ (hash >>> 16)
  let hash := imul32 hash 2246822507
  let hash := hash ^^^ (hash >>> 13)
  let hash := imul32 hash 3266489909
  let hash := hash ^^^ (hash >>> 16)
  int32ofPat hash

/-- Transcription of `doNormalizeInPlace` (heavyLogic); the in-place update
becomes a returned record. -/
def doNormalizeInPlace (sf : ℚ → ℚ) (s : ThinState) : ThinState :=
  let mean := meanOf s.values
  let std := stdOf sf s.values
  let epsilon : ℚ := 1/1000000
  let newValues := s.values.map (fun v =>
    let centered := v - mean
    let normalized := centered / (std + epsilon)
    max (-8) (min 8 normalized))
  { s with
    values := newValues
    bias := s.bias * (9/10) + mean * (1/10)
    scale := s.scale * (9/10) + (1 / (std + epsilon)) * (1/10) }

/-- Effective window of `doRollingAverage`:
`Math.max(1, Math.min(windowSize | 0, Math.max(1, n)))`. -/
def effectiveWindow (n : Nat) (windowSize : ℚ) : Nat :=
  (max 1 (min (toInt32 windowSize) (max 1 (n : Int)))).toNat

/-- Transcription of `doRollingAverage` (heavyLogic): running-sum loop over
indices, then the `v * scale + bias * 0.001` adjustment.  Pure: the state is
not written. -/
def doRollingAverage (s : ThinState) (windowSize : ℚ) : List ℚ :=
  let n := s.values.length
  let w := effectiveWindow n windowSize
  let acc := (List.range n).foldl (fun (acc : ℚ × List ℚ) i =>
    let running := acc.1 + s.values.getD i 0
    let running := if w ≤ i then running - s.values.getD (i - w) 0 else running
    let count : Nat := if i + 1 < w then i + 1 else w
    (running, running / (count : ℚ) :: acc.2)) (0, [])
  let output := acc.2.reverse
  output.map (fun v => v * s.scale + s.bias * (1/1000))

/-- Undecorated field lines of `doFormatSummary`; an empty `values` leaves
the JavaScript `min`/`max` at the `Infinity` sentinels they start from, which
`toFixed` prints literally. -/
def summaryFields (s : ThinState) : List String :=
  let minOpt := s.values.foldl (fun acc v =>
    match acc with
    | none => some v
    | some m => some (if v < m then v else m)) none
  let maxOpt := s.values.foldl (fun acc v =>
    match acc with
    | none => some v
    | some m => some (if m < v then v else m)) none
  let mean := if s.values.length ≠ 0 then sumOf s.values / (s.values.length : ℚ) else 0
  let minStr := match minOpt with | some m => toFixed6 m | none => "Infinity"
  let maxStr := match maxOpt with | some m => toFixed6 m | none => "-Infinity"
  ["id=" ++ toString s.id,
   "name=" ++ s.name,
   "tag=" ++ s.tag,
   "len=" ++ toString s.values.length,
   "bias=" ++ toFixed6 s.bias,
   "scale=" ++ toFixed6 s.scale,
   "min=" ++ minStr,
   "max=" ++ maxStr,
   "mean=" ++ toFixed6 mean,
   "checksum=" ++ toString (doChecksum s)]

/-- Decorated summary lines: each field line prefixed by its two-hex-digit
zero-padded index and a separator bar. -/
def summaryLines (s : ThinState) : List String :=
  (summaryFields s).enum.map (fun p => hex2 p.1 ++ "|" ++ p.2)

/-- Transcription of `doFormatSummary` (heavyLogic). -/
def doFormatSummary (s : ThinState) : String :=
  String.intercalate "\n" (summaryLines s)

/-- Seed setup of `doScramble`: `let x = (seed | 0) || 2463534242`. -/
def scrambleInit (seed : ℚ) : Nat :=
  let p := u32ofInt (toInt32 seed)
  if p = 0 then 2463534242 else p

/-- Eight warm-up xorshift rounds of `doScramble`. -/
def warm8 (x : Nat) : Nat := (List.range 8).foldl (fun x _ => xsRound x) x

/-- Transcription of `doScramble` (heavyLogic). -/
def doScramble (s : ThinState) (seed : ℚ) : ThinState :=
  let x := warm8 (scrambleInit seed)
  let acc := s.values.enum.foldl (fun (acc : Nat × List ℚ) iv =>
    let x := xsRound acc.1
    let rnd : ℚ := (x : ℚ) / 4294967295
    let v := iv.2
    let sign : ℚ := if x % 2 = 0 then 1 else -1
    let delta := sign * (rnd * (1/100) + ((iv.1 % 7 : Nat) : ℚ) * (1/10000))
    (x, (v + delta) :: acc.2)) (x, [])
  { s with
    values := acc.2.reverse
    bias := s.bias + (((acc.1 % 256 : Nat) : ℚ) - 128) * (1/1000000)
    scale := s.scale * (1 + ((((acc.1 >>> 8) % 256 : Nat) : ℚ) - 128) * (1/1000000)) }

/-- One diffusion iteration of `doSimulate`: three-point neighbour average
with clamped edges, 25% relaxation, then the affine adjustment.  All indices
read the previous iteration's buffer. -/
def diffuseStep (scale bias : ℚ) (n : Nat) (vals : List ℚ) : List ℚ :=
  (List.range n).map (fun i =>
    let left := if 0 < i then vals.getD (i - 1) 0 else vals.getD i 0
    let center := vals.getD i 0
    let right := if i + 1 < n then vals.getD (i + 1) 0 else vals.getD i 0
    let target := (left + center + right) / 3
    let next := center + (target - center) * (1/4)
    next * scale + bias * (1/10000))

/-- Energy metric of `doSimulate`: sum of squared differences of consecutive
elements. -/
def energyOf (vals : List ℚ) : ℚ :=
  (vals.zip vals.tail).foldl (fun e p => e + (p.2 - p.1) * (p.2 - p.1)) 0

/-- Transcription of `doSimulate` (heavyLogic): returns the energy together
with the mutated state. -/
def doSimulate (s : ThinState) (iterations : ℚ) : ℚ × ThinState :=
  let steps := (max 1 (toInt32 iterations)).toNat
  let n := s.values.length
  if n = 0 then (0, s)
  else
    let finalVals := (List.range steps).foldl
      (fun vals _ => diffuseStep s.scale s.bias n vals) s.values
    (energyOf finalVals, { s with values := finalVals })

/-- Transcription of `createHeavyThingThin` (heavyFactoryThin): builds the
state record, copying the input values; `now` is the `Date.now()` reading at
construction. -/
def createHeavyThingThin (id : Int) (name : String) (values : List ℚ)
    (bias scale : ℚ) (tag : String) (now : Int) : ThinState :=
  { id := id, name := name, values := values, bias := bias, scale := scale,
    createdAt := now, tag := tag }

/-- Metadata record of the class strategy (`this.meta`): createdAt and tag. -/
structure HeavyMeta where
  createdAt : Int
  tag : String

/-- State of the class strategy `HeavyThing` (heavyClass): public id and
name, private values, bias, scale and nested meta record. -/
structure HeavyThing where
  id : Int
  name : String
  values : List ℚ
  bias : ℚ
  scale : ℚ
  meta : HeavyMeta

namespace HeavyThing

/-- Transcription of the `HeavyThing` constructor: copies `values` and stamps
`createdAt` with the `Date.now()` reading `now`. -/
def make (id : Int) (name : String) (values : List ℚ) (bias scale : ℚ)
    (tag : String) (now : Int) : HeavyThing :=
  { id := id, name := name, values := values, bias := bias, scale := scale,
    meta := { createdAt := now, tag := tag } }

/-- Transcription of `HeavyThing.checksum` (heavyClass); the dead `running`
accumulator is omitted. -/
def checksum (s : HeavyThing) : Int :=
  let hash : Nat := 2166136261
  let hash := s.values.foldl (fun hash raw =>
    let transformed : ℚ := raw * s.scale + s.bias
    let hash := hash ^^^ (u32ofInt (toInt32 (transformed * 1000003)))
    imul32 hash 16777619) hash
  let hash := imul32 (hash ^^^ u32ofInt s.id) 16777619
  let hash := imul32 (hash ^^^ u32ofInt (s.name.length : Int)) 16777619
  let ts := u32ofInt s.meta.createdAt
  let hash := imul32 (hash ^^^ ts) 2246822519
  let hash := s.meta.tag.data.foldl (fun hash c =>
    let hash := hash ^^^ (u32ofInt (c.toNat : Int))
    let hash := u32ofInt ((hash : Int) + int32ofPat (shl32 hash 13))
    hash ^^^ (hash >>> 7)) hash
  let hash := hash ^^^ (hash >>> 16)
  let hash := imul32 hash 2246822507
  let hash := hash ^^^ (hash >>> 13)
  let hash := imul32 hash 3266489909
  let hash := hash ^^^ (hash >>> 16)
  int32ofPat hash

/-- Transcription of `HeavyThing.normalizeInPlace` (heavyClass). -/
def normalizeInPlace (sf : ℚ → ℚ) (s : HeavyThing) : HeavyThing :=
  let mean := meanOf s.values
  let std := stdOf sf s.values
  let epsilon : ℚ := 1/1000000
  let newValues := s.values.map (fun v =>
    let centered := v - mean
    let normalized := centered / (std + epsilon)
    max (-8) (min 8 normalized))
  { s with
    values := newValues
    bias := s.bias * (9/10) + mean * (1/10)
    scale := s.scale * (9/10) + (1 / (std + epsilon)) * (1/10) }

/-- Transcription of `HeavyThing.rollingAverage` (heavyClass). -/
def rollingAverage (s : HeavyThing) (windowSize : ℚ) : List ℚ :=
  let n := s.values.length
  let w := effectiveWindow n windowSize
  let acc := (List.range n).foldl (fun (acc : ℚ × List ℚ) i =>
    let running := acc.1 + s.values.getD i 0
    let running := if w ≤ i then running - s.values.getD (i - w) 0 else running
    let count : Nat := if i + 1 < w then i + 1 else w
    (running, running / (count : ℚ) :: acc.2)) (0, [])
  let output := acc.2.reverse
  output.map (fun v => v * s.scale + s.bias * (1/1000))

/-- Transcription of `HeavyThing.formatSummary` (heavyClass). -/
def formatSummary (s : HeavyThing) : String :=
  let minOpt := s.values.foldl (fun acc v =>
    match acc with
    | none => some v
    | some m => some (if v < m then v else m)) none
  let maxOpt := s.values.foldl (fun acc v =>
    match acc with
    | none => some v
    | some m => some (if m < v then v else m)) none
  let mean := if s.values.length ≠ 0 then sumOf s.values / (s.values.length : ℚ) else 0
  let minStr := match minOpt with | some m => toFixed6 m | none => "Infinity"
  let maxStr := match maxOpt with | some m => toFixed6 m | none => "-Infinity"
  let lines :=
    ["id=" ++ toString s.id,
     "name=" ++ s.name,
     "tag=" ++ s.meta.tag,
     "len=" ++ toString s.values.length,
     "bias=" ++ toFixed6 s.bias,
     "scale=" ++ toFixed6 s.scale,
     "min=" ++ minStr,
     "max=" ++ maxStr,
     "mean=" ++ toFixed6 mean,
     "checksum=" ++ toString (checksum s)]
  String.intercalate "\n" (lines.enum.map (fun p => hex2 p.1 ++ "|" ++ p.2))

/-- Transcription of `HeavyThing.scramble` (heavyClass). -/
def scramble (s : HeavyThing) (seed : ℚ) : HeavyThing :=
  let x := warm8 (scrambleInit seed)
  let acc := s.values.enum.foldl (fun (acc : Nat × List ℚ) iv =>
    let x := xsRound acc.1
    let rnd : ℚ := (x : ℚ) / 4294967295
    let v := iv.2
    let sign : ℚ := if x % 2 = 0 then 1 else -1
    let delta := sign * (rnd * (1/100) + ((iv.1 % 7 : Nat) : ℚ) * (1/10000))
    (x, (v + delta) :: acc.2)) (x, [])
  { s with
    values := acc.2.reverse
    bias := s.bias + (((acc.1 % 256 : Nat) : ℚ) - 128) * (1/1000000)
    scale := s.scale * (1 + ((((acc.1 >>> 8) % 256 : Nat) : ℚ) - 128) * (1/1000000)) }

/-- Transcription of `HeavyThing.simulate` (heavyClass). -/
def simulate (s : HeavyThing) (iterations : ℚ) : ℚ × HeavyThing :=
  let steps := (max 1 (toInt32 iterations)).toNat
  let n := s.values.length
  if n = 0 then (0, s)
  else
    let finalVals := (List.range steps).foldl
      (fun vals _ => diffuseStep s.scale s.bias n vals) s.values
    (energyOf finalVals, { s with values := finalVals })

end HeavyThing

/-- Metadata record captured by the closure factory (`_meta`). -/
structure FactoryMeta where
  createdAt : Int
  tag : String

/-- Closure state of `createHeavyThing` (heavyFactory): the captured
variables `_id`, `_name`, `_values`, `_bias`, `_scale`, `_meta`. -/
structure FactoryState where
  id : Int
  name : String
  values : List ℚ
  bias : ℚ
  scale : ℚ
  meta : FactoryMeta

namespace Factory

/-- Transcription of the body of `createHeavyThing` (heavyFactory): the
captured state after construction; `values` is copied and `createdAt` is the
`Date.now()` reading `now`. -/
def createHeavyThing (id : Int) (name : String) (values : List ℚ)
    (bias scale : ℚ) (tag : String) (now : Int) : FactoryState :=
  { id := id, name := name, values := values, bias := bias, scale := scale,
    meta := { createdAt := now, tag := tag } }

/-- Transcription of the `checksum` closure (heavyFactory); the dead
`running` accumulator is omitted. -/
def checksum (s : FactoryState) : Int :=
  let hash : Nat := 2166136261
  let hash := s.values.foldl (fun hash raw =>
    let transformed : ℚ := raw * s.scale + s.bias
    let hash := hash ^^^ (u32ofInt (toInt32 (transformed * 1000003)))
    imul32 hash 16777619) hash
  let hash := imul32 (hash ^^^ u32ofInt s.id) 16777619
  let hash := imul32 (hash ^^^ u32ofInt (s.name.length : Int)) 16777619
  let ts := u32ofInt s.meta.createdAt
  let hash := imul32 (hash ^^^ ts) 2246822519
  let hash := s.meta.tag.data.foldl (fun hash c =>
    let hash := hash ^^^ (u32ofInt (c.toNat : Int))
    let hash := u32ofInt ((hash : Int) + int32ofPat (shl32 hash 13))
    hash ^^^ (hash >>> 7)) hash
  let hash := hash ^^^ (hash >>> 16)
  let hash := imul32 hash 2246822507
  let hash := hash ^^^ (hash >>> 13)
  let hash := imul32 hash 3266489909
  let hash := hash ^^^ (hash >>> 16)
  int32ofPat hash

/-- Transcription of the `normalizeInPlace` closure (heavyFactory). -/
def normalizeInPlace (sf : ℚ → ℚ) (s : FactoryState) : FactoryState :=
  let mean := meanOf s.values
  let std := stdOf sf s.values
  let epsilon : ℚ := 1/1000000
  let newValues := s.values.map (fun v =>
    let centered := v - mean
    let normalized := centered / (std + epsilon)
    max (-8) (min 8 normalized))
  { s with
    values := newValues
    bias := s.bias * (9/10) + mean * (1/10)
    scale := s.scale * (9/10) + (1 / (std + epsilon)) * (1/10) }

/-- Transcription of the `rollingAverage` closure (heavyFactory). -/
def rollingAverage (s : FactoryState) (windowSize : ℚ) : List ℚ :=
  let n := s.values.length
  let w := effectiveWindow n windowSize
  let acc := (List.range n).foldl (fun (acc : ℚ × List ℚ) i =>
    let running := acc.1 + s.values.getD i 0
    let running := if w ≤ i then running - s.values.getD (i - w) 0 else running
    let count : Nat := if i + 1 < w then i + 1 else w
    (running, running / (count : ℚ) :: acc.2)) (0, [])
  let output := acc.2.reverse
  output.map (fun v => v * s.scale + s.bias * (1/1000))

/-- Transcription of the `formatSummary` closure (heavyFactory). -/
def formatSummary (s : FactoryState) : String :=
  let minOpt := s.values.foldl (fun acc v =>
    match acc with
    | none => some v
    | some m => some (if v < m then v else m)) none
  let maxOpt := s.values.foldl (fun acc v =>
    match acc with
    | none => some v
    | some m => some (if m < v then v else m)) none
  let mean := if s.values.length ≠ 0 then sumOf s.values / (s.values.length : ℚ) else 0
  let minStr := match minOpt with | some m => toFixed6 m | none => "Infinity"
  let maxStr := match maxOpt with | some m => toFixed6 m | none => "-Infinity"
  let lines :=
    ["id=" ++ toString s.id,
     "name=" ++ s.name,
     "tag=" ++ s.meta.tag,
     "len=" ++ toString s.values.length,
     "bias=" ++ toFixed6 s.bias,
     "scale=" ++ toFixed6 s.scale,
     "min=" ++ minStr,
     "max=" ++ maxStr,
     "mean=" ++ toFixed6 mean,
     "checksum=" ++ toString (checksum s)]
  String.intercalate "\n" (lines.enum.map (fun p => hex2 p.1 ++ "|" ++ p.2))

/-- Transcription of the `scramble` closure (heavyFactory). -/
def scramble (s : FactoryState) (seed : ℚ) : FactoryState :=
  let x := warm8 (scrambleInit seed)
  let acc := s.values.enum.foldl (fun (acc : Nat × List ℚ) iv =>
    let x := xsRound acc.1
    let rnd : ℚ := (x : ℚ) / 4294967295
    let v := iv.2
    let sign : ℚ := if x % 2 = 0 then 1 else -1
    let delta := sign * (rnd * (1/100) + ((iv.1 % 7 : Nat) : ℚ) * (1/10000))
    (x, (v + delta) :: acc.2)) (x, [])
  { s with
    values := acc.2.reverse
    bias := s.bias + (((acc.1 % 256 : Nat) : ℚ) - 128) * (1/1000000)
    scale := s.scale * (1 + ((((acc.1 >>> 8) % 256 : Nat) : ℚ) - 128) * (1/1000000)) }

/-- Transcription of the `simulate` closure (heavyFactory). -/
def simulate (s : FactoryState) (iterations : ℚ) : ℚ × FactoryState :=
  let steps := (max 1 (toInt32 iterations)).toNat
  let n := s.values.length
  if n = 0 then (0, s)
  else
    let finalVals := (List.range steps).foldl
      (fun vals _ => diffuseStep s.scale s.bias n vals) s.values
    (energyOf finalVals, { s with values := finalVals })

end Factory

/-- One call of the uniform public surface that every strategy exposes;
numeric arguments keep their JavaScript `number` type (`ℚ`). -/
inductive Op where
  | checksum : Op
  | normalize : Op
  | rolling : ℚ → Op
  | format : Op
  | scramble : ℚ → Op
  | simulate : ℚ → Op

/-- Result of one call: a 32-bit integer, a float list, a string, a float,
or `undefined` for the in-place mutators. -/
inductive Res where
  | rInt : Int → Res
  | rList : List ℚ → Res
  | rStr : String → Res
  | rNum : ℚ → Res
  | rUnit : Res
deriving DecidableEq

/-- Thin strategy: result and post-state of one call on a state record. -/
def stepThin (sf : ℚ → ℚ) (s : ThinState) : Op → Res × ThinState
  | .checksum => (.rInt (doChecksum s), s)
  | .normalize => (.rUnit, doNormalizeInPlace sf s)
  | .rolling w => (.rList (doRollingAverage s w), s)
  | .format => (.rStr (doFormatSummary s), s)
  | .scramble seed => (.rUnit, doScramble s seed)
  | .simulate it => ((doSimulate s it).1 |> .rNum, (doSimulate s it).2)

/-- Thin strategy: results of a call sequence plus the final state. -/
def runThin (sf : ℚ → ℚ) (s : ThinState) : List Op → List Res × ThinState
  | [] => ([], s)
  | op :: ops =>
    let r := stepThin sf s op
    let rest := runThin sf r.2 ops
    (r.1 :: rest.1, rest.2)

/-- Class strategy: result and post-state of one call. -/
def stepCls (sf : ℚ → ℚ) (s : HeavyThing) : Op → Res × HeavyThing
  | .checksum => (.rInt (HeavyThing.checksum s), s)
  | .normalize => (.rUnit, HeavyThing.normalizeInPlace sf s)
  | .rolling w => (.rList (HeavyThing.rollingAverage s w), s)
  | .format => (.rStr (HeavyThing.formatSummary s), s)
  | .scramble seed => (.rUnit, HeavyThing.scramble s seed)
  | .simulate it => ((HeavyThing.simulate s it).1 |> .rNum, (HeavyThing.simulate s it).2)

/-- Class strategy: results of a call sequence plus the final state. -/
def runCls (sf : ℚ → ℚ) (s : HeavyThing) : List Op → List Res × HeavyThing
  | [] => ([], s)
  | op :: ops =>
    let r := stepCls sf s op
    let rest := runCls sf r.2 ops
    (r.1 :: rest.1, rest.2)

/-- Closure-factory strategy: result and post-state of one call. -/
def stepFac (sf : ℚ → ℚ) (s : FactoryState) : Op → Res × FactoryState
  | .checksum => (.rInt (Factory.checksum s), s)
  | .normalize => (.rUnit, Factory.normalizeInPlace sf s)
  | .rolling w => (.rList (Factory.rollingAverage s w), s)
  | .format => (.rStr (Factory.formatSummary s), s)
  | .scramble seed => (.rUnit, Factory.scramble s seed)
  | .simulate it => ((Factory.simulate s it).1 |> .rNum, (Factory.simulate s it).2)

/-- Closure-factory strategy: results of a call sequence plus the final
state. -/
def runFac (sf : ℚ → ℚ) (s : FactoryState) : List Op → List Res × FactoryState
  | [] => ([], s)
  | op :: ops =>
    let r := stepFac sf s op
    let rest := runFac sf r.2 ops
    (r.1 :: rest.1, rest.2)

/-- Flattening of a class-strategy state onto the thin state record. -/
def HeavyThing.toThin (s : HeavyThing) : ThinState :=
  { id := s.id, name := s.name, values := s.values, bias := s.bias,
    scale := s.scale, createdAt := s.meta.createdAt, tag := s.meta.tag }

/-- Flattening of a closure-factory state onto the thin state record. -/
def FactoryState.toThin (s : FactoryState) : ThinState :=
  { id := s.id, name := s.name, values := s.values, bias := s.bias,
    scale := s.scale, createdAt := s.meta.createdAt, tag := s.meta.tag }

/-- Construction strategy dispatched by `makeInstances`; `proto` marks the
shared-prototype factory `createHeavyThingPrototype`, which is a fourth,
separate constructor in the repository. -/
inductive Strategy where
  | cls : Strategy
  | factory : Strategy
  | thin : Strategy
  | proto : Strategy
deriving DecidableEq

/-- Dispatch of `makeInstances` on the `approach` string: a `"class"` /
`"factory"` conditional chain whose final else-branch builds the thin
wrapper. -/
def strategyUsed (approach : String) : Strategy :=
  if approach = "class" then .cls
  else if approach = "factory" then .factory
  else .thin

/-- Seed pattern of `generateInitialValues`:
`let x = (seed | 0) || 123456789`. -/
def seedPat (seed : Int) : Nat :=
  let p := u32ofInt seed
  if p = 0 then 123456789 else p

/-- Mapping of one xorshift draw into `[-1, 1]`:
`(rnd - 0.5) * 2` with `rnd = (x >>> 0) / 0xffffffff`. -/
def drawToValue (x : Nat) : ℚ := ((x : ℚ) / 4294967295 - 1/2) * 2

/-- Transcription of `generateInitialValues` (makeInstances): a length-`len`
xorshift32 stream from the id-derived seed, each draw mapped into
`[-1, 1]`. -/
def generateInitialValues (seed : Int) (len : Nat) : List ℚ :=
  let x := seedPat seed
  ((List.range len).foldl (fun (acc : Nat × List ℚ) _ =>
    let x := xsRound acc.1
    (x, drawToValue x :: acc.2)) (x, [])).2.reverse

/-- Constructor arguments derived for the `i`-th instance by
`makeInstances`. -/
structure SeedArgs where
  id : Int
  name : String
  tag : String
  values : List ℚ
  bias : ℚ
  scale : ℚ

/-- Per-index argument derivation of the `makeInstances` loop body. -/
def seedFor (i : Nat) : SeedArgs :=
  { id := (i : Int) + 1,
    name := "obj_" ++ natToHex (i + 1),
    tag := if i % 3 = 0 then "alpha" else if i % 3 = 1 then "beta" else "gamma",
    values := generateInitialValues ((i : Int) + 1) 64,
    bias := ((i % 7 : Nat) : ℚ) * (1/100),
    scale := 1 + ((i % 5 : Nat) : ℚ) * (1/100) }

/-- Transcription of the construction loop of `makeInstances`: for each
index the dispatched strategy together with the derived constructor
arguments. -/
def makeInstances (approach : String) (count : Nat) : List (Strategy × SeedArgs) :=
  (List.range count).map (fun i => (strategyUsed approach, seedFor i))

/-- Transcription of the option-scanning loop of `parseArgs` (main):
`toNumber` models the external `Number()` conversion, `none` standing for a
non-finite result. -/
def parseArgsLoop (toNumber : String → Option ℚ) :
    List String → Option String → Option Nat → Option String × Option Nat
  | [], approach, count => (approach, count)
  | a :: rest, approach, count =>
    if a = "--approach" then
      match rest with
      | [] => (approach, count)
      | v :: rest2 =>
        let approach2 :=
          if v = "class" ∨ v = "factory" ∨ v = "factory-thin" ∨
              v = "factory-prototype" then some v else approach
        parseArgsLoop toNumber rest2 approach2 count
    else if a = "--count" then
      match rest with
      | [] => (approach, count)
      | v :: rest2 =>
        let count2 :=
          match toNumber v with
          | some q => if 0 < q then some (Rat.floor q).toNat else count
          | none => count
        parseArgsLoop toNumber rest2 approach count2
    else parseArgsLoop toNumber rest approach count

/-- Transcription of `parseArgs` (main): scan the arguments, then reject a
missing approach and a missing or zero count (`!count` is true for `0`). -/
def parseArgs (toNumber : String → Option ℚ) (argv : List String) :
    Option (String × Nat) :=
  match parseArgsLoop toNumber argv none none with
  | (some approach, some count) => if count = 0 then none else some (approach, count)
  | _ => none

/-- Observable actions of `takeHeapSnapshot` (snapshot), in program order. -/
inductive SnapAct where
  | connect : SnapAct
  | handlerOn : SnapAct
  | postEnable : SnapAct
  | postTake : SnapAct
  | handlerOff : SnapAct
  | streamEnd : SnapAct
  | postDisable : SnapAct
  | disconnect : SnapAct
deriving DecidableEq

/-- Outcomes the profiling protocol can deliver: whether each awaited
request resolves.  The stream-end promise in the source only ever resolves,
so it has no failure flag. -/
structure SnapshotEnv where
  enableOk : Bool
  takeOk : Bool
  disableOk : Bool

/-- Transcription of the control flow of `takeHeapSnapshot` (snapshot): a
rejected awaited step throws out of the async function immediately, so
nothing after it runs.  Returns the surfaced outcome and the ordered list of
performed actions. -/
def takeHeapSnapshot (env : SnapshotEnv) : Except String Unit × List SnapAct :=
  let tr := [SnapAct.connect, SnapAct.handlerOn]
  if !env.enableOk then (.error "HeapProfiler.enable", tr ++ [SnapAct.postEnable])
  else
    let tr := tr ++ [SnapAct.postEnable]
    if !env.takeOk then (.error "HeapProfiler.takeHeapSnapshot", tr ++ [SnapAct.postTake])
    else
      let tr := tr ++ [SnapAct.postTake, SnapAct.handlerOff, SnapAct.streamEnd]
      if !env.disableOk then (.error "HeapProfiler.disable", tr ++ [SnapAct.postDisable])
      else (.ok (), tr ++ [SnapAct.postDisable, SnapAct.disconnect])

/-- Iterated xorshift32 round: the generator state after `n` draws from
`x`. -/
def xsIter : Nat → Nat → Nat
  | 0, x => x
  | n + 1, x => xsIter n (xsRound x)

/-- Reference stream (spec wording): the sequence of xorshift32 states
produced from `x`, the `i`-th entry being the state after `i + 1` rounds. -/
def xorshiftStream (x : Nat) (n : Nat) : List Nat :=
  (List.range n).map (fun i => xsIter (i + 1) x)

/-- Signed perturbation drawn by `doScramble` for generator state `x` at
index `i`. -/
def deltaOf (x : Nat) (i : Nat) : ℚ :=
  (if x % 2 = 0 then (1 : ℚ) else -1) *
    ((x : ℚ) / 4294967295 * (1/100) + ((i % 7 : Nat) : ℚ) * (1/10000))

/-- Perturbation list of `doScramble` starting at generator state `x` and
index `k`. -/
def scrambleDeltasFrom (x : Nat) (k : Nat) : Nat → List ℚ
  | 0 => []
  | n + 1 => deltaOf (xsRound x) k :: scrambleDeltasFrom (xsRound x) (k + 1) n

/-- Perturbations `doScramble` adds to a length-`n` value list for a given
seed: a function of the seed and the length only. -/
def scrambleDeltas (seed : ℚ) (n : Nat) : List ℚ :=
  scrambleDeltasFrom (warm8 (scrambleInit seed)) 0 n

/-- Final generator state of `doScramble` after the per-value draws. -/
def scrambleFinalX (seed : ℚ) (n : Nat) : Nat :=
  xsIter n (warm8 (scrambleInit seed))

/-- Additive adjustment `doScramble` applies to `bias`. -/
def scrambleBiasAdj (seed : ℚ) (n : Nat) : ℚ :=
  ((((scrambleFinalX seed n) % 256 : Nat) : ℚ) - 128) * (1/1000000)

/-- Multiplicative factor `doScramble` applies to `scale`. -/
def scrambleScaleFac (seed : ℚ) (n : Nat) : ℚ :=
  1 + (((((scrambleFinalX seed n) >>> 8) % 256 : Nat) : ℚ) - 128) * (1/1000000)

/-- Loop body of the rolling-average running-sum loop, named for proofs;
definitionally equal to the inline lambda of `doRollingAverage`. -/
def rollStep (vals : List ℚ) (w : Nat) (acc : ℚ × List ℚ) (i : Nat) : ℚ × List ℚ :=
  let running := acc.1 + vals.getD i 0
  let running := if w ≤ i then running - vals.getD (i - w) 0 else running
  let count : Nat := if i + 1 < w then i + 1 else w
  (running, running / (count : ℚ) :: acc.2)

/-- Loop body of `generateInitialValues`, named for proofs; definitionally
equal to the inline lambda. -/
def genStep (p : Nat × List ℚ) (_i : Nat) : Nat × List ℚ :=
  (xsRound p.1, drawToValue (xsRound p.1) :: p.2)

/-- Loop body of the per-value loop of `doScramble`, named for proofs;
definitionally equal to the inline lambda. -/
def scramStep (p : Nat × List ℚ) (iv : Nat × ℚ) : Nat × List ℚ :=
  (xsRound p.1, (iv.2 + deltaOf (xsRound p.1) iv.1) :: p.2)

lemma cls_simulate_toThin (s : HeavyThing) (it : ℚ) :
    (HeavyThing.simulate s it).1 = (doSimulate s.toThin it).1 ∧
    (HeavyThing.simulate s it).2.toThin = (doSimulate s.toThin it).2 := by
  unfold HeavyThing.simulate doSimulate
  by_cases h : s.values.length = 0 <;> simp [HeavyThing.toThin, h]

lemma fac_simulate_toThin (s : FactoryState) (it : ℚ) :
    (Factory.simulate s it).1 = (doSimulate s.toThin it).1 ∧
    (Factory.simulate s it).2.toThin = (doSimulate s.toThin it).2 := by
  unfold Factory.simulate doSimulate
  by_cases h : s.values.length = 0 <;> simp [FactoryState.toThin, h]

lemma stepCls_toThin (sf : ℚ → ℚ) (s : HeavyThing) (op : Op) :
    (stepCls sf s op).1 = (stepThin sf s.toThin op).1 ∧
    (stepCls sf s op).2.toThin = (stepThin sf s.toThin op).2 := by
  cases op <;> (try exact ⟨rfl, rfl⟩)
  next it =>
    have h := cls_simulate_toThin s it
    refine ⟨?_, ?_⟩ <;> simp only [stepCls, stepThin]
    · rw [h.1]
    · rw [h.2]

lemma stepFac_toThin (sf : ℚ → ℚ) (s : FactoryState) (op : Op) :
    (stepFac sf s op).1 = (stepThin sf s.toThin op).1 ∧
    (stepFac sf s op).2.toThin = (stepThin sf s.toThin op).2 := by
  cases op <;> (try exact ⟨rfl, rfl⟩)
  next it =>
    have h := fac_simulate_toThin s it
    refine ⟨?_, ?_⟩ <;> simp only [stepFac, stepThin]
    · rw [h.1]
    · rw [h.2]

lemma runCls_toThin (sf : ℚ → ℚ) (ops : List Op) :
    ∀ s : HeavyThing,
      (runCls sf s ops).1 = (runThin sf s.toThin ops).1 ∧
      (runCls sf s ops).2.toThin = (runThin sf s.toThin ops).2 := by
  induction ops with
  | nil => intro s; exact ⟨rfl, rfl⟩
  | cons op ops ih =>
    intro s
    have h := stepCls_toThin sf s op
    simp only [runCls, runThin]
    exact ⟨by rw [h.1, (ih _).1, h.2], by rw [(ih _).2, h.2]⟩

lemma runFac_toThin (sf : ℚ → ℚ) (ops : List Op) :
    ∀ s : FactoryState,
      (runFac sf s ops).1 = (runThin sf s.toThin ops).1 ∧
      (runFac sf s ops).2.toThin = (runThin sf s.toThin ops).2 := by
  induction ops with
  | nil => intro s; exact ⟨rfl, rfl⟩
  | cons op ops ih =>
    intro s
    have h := stepFac_toThin sf s op
    simp only [runFac, runThin]
    exact ⟨by rw [h.1, (ih _).1, h.2], by rw [(ih _).2, h.2]⟩

lemma doRollingAverage_eq (s : ThinState) (ws : ℚ) :
    doRollingAverage s ws =
      (((List.range s.values.length).foldl
          (rollStep s.values (effectiveWindow s.values.length ws)) (0, [])).2.reverse).map
        (fun v => v * s.scale + s.bias * (1/1000)) := rfl

lemma generateInitialValues_eq (seed : Int) (len : Nat) :
    generateInitialValues seed len =
      (((List.range len).foldl genStep (seedPat seed, [])).2).reverse := rfl

lemma doScramble_eq (s : ThinState) (seed : ℚ) :
    doScramble s seed =
      { s with
        values := ((s.values.enum.foldl scramStep (warm8 (scrambleInit seed), [])).2).reverse,
        bias := s.bias +
          ((((s.values.enum.foldl scramStep (warm8 (scrambleInit seed), [])).1 % 256 : Nat) : ℚ)
            - 128) * (1/1000000),
        scale := s.scale *
          (1 + (((((s.values.enum.foldl scramStep (warm8 (scrambleInit seed), [])).1 >>> 8) % 256
            : Nat) : ℚ) - 128) * (1/1000000)) } := rfl

lemma xsIter_succ (n x : Nat) : xsIter (n + 1) x = xsIter n (xsRound x) := rfl

lemma xsIter_out : ∀ n x, xsIter (n + 1) x = xsRound (xsIter n x) := by
  intro n
  induction n with
  | zero => intro x; rfl
  | succ n ih =>
    intro x
    calc xsIter (n + 1 + 1) x = xsIter (n + 1) (xsRound x) := rfl
    _ = xsRound (xsIter n (xsRound x)) := ih (xsRound x)
    _ = xsRound (xsIter (n + 1) x) := by rw [xsIter_succ]

lemma xorshiftStream_length (x n : Nat) : (xorshiftStream x n).length = n := by
  simp [xorshiftStream]

lemma xorshiftStream_snoc (x n : Nat) :
    xorshiftStream x (n + 1) = xorshiftStream x n ++ [xsIter (n + 1) x] := by
  simp [xorshiftStream, List.range_succ]

lemma xorshiftStream_cons (x n : Nat) :
    xorshiftStream x (n + 1) = xsRound x :: xorshiftStream (xsRound x) n := by
  have hf : ((fun i => xsIter (i + 1) x) ∘ Nat.succ) = (fun i => xsIter (i + 1) (xsRound x)) := by
    funext i
    rfl
  unfold xorshiftStream
  rw [List.range_succ_eq_map]
  rw [List.map_cons, List.map_map, hf]
  rfl

lemma gen_fold (x : Nat) (L : List ℚ) : ∀ n : Nat,
    (List.range n).foldl genStep (x, L) =
      (xsIter n x, ((xorshiftStream x n).map drawToValue).reverse ++ L) := by
  intro n
  induction n with
  | zero => simp [xorshiftStream, xsIter]
  | succ n ih =>
    rw [List.range_succ, List.foldl_append, ih]
    simp only [List.foldl_cons, List.foldl_nil, genStep, xorshiftStream_snoc,
      List.map_append, List.reverse_append]
    rw [← xsIter_out]
    simp

lemma generateInitialValues_eq_stream (seed : Int) (len : Nat) :
    generateInitialValues seed len = (xorshiftStream (seedPat seed) len).map drawToValue := by
  rw [generateInitialValues_eq, gen_fold]
  simp

lemma scram_fold : ∀ (l : List ℚ) (k x : Nat) (L : List ℚ),
    (List.enumFrom k l).foldl scramStep (x, L) =
      (xsIter l.length x,
       (List.zipWith (· + ·) l (scrambleDeltasFrom x k l.length)).reverse ++ L) := by
  intro l
  induction l with
  | nil => intro k x L; simp [scrambleDeltasFrom, xsIter]
  | cons v t ih =>
    intro k x L
    have h1 : List.enumFrom k (v :: t) = (k, v) :: List.enumFrom (k + 1) t := rfl
    have h2 : scramStep (x, L) (k, v) = (xsRound x, (v + deltaOf (xsRound x) k) :: L) := rfl
    rw [h1, List.foldl_cons, h2, ih]
    simp [scrambleDeltasFrom, List.reverse_cons, List.append_assoc, xsIter_succ]

lemma scrambleDeltasFrom_length (n : Nat) : ∀ x k : Nat,
    (scrambleDeltasFrom x k n).length = n := by
  induction n with
  | zero => intro x k; rfl
  | succ n ih => intro x k; simp only [scrambleDeltasFrom, List.length_cons, ih]

lemma doScramble_spec (s : ThinState) (seed : ℚ) :
    doScramble s seed =
      { s with
        values := List.zipWith (· + ·) s.values (scrambleDeltas seed s.values.length),
        bias := s.bias + scrambleBiasAdj seed s.values.length,
        scale := s.scale * scrambleScaleFac seed s.values.length } := by
  rw [doScramble_eq]
  have he : s.values.enum = List.enumFrom 0 s.values := rfl
  rw [he, scram_fold]
  simp [scrambleDeltas, scrambleBiasAdj, scrambleScaleFac, scrambleFinalX]

lemma effectiveWindow_one (n : Nat) : effectiveWindow n 1 = 1 := by
  unfold effectiveWindow
  rw [show toInt32 1 = 1 from by decide, min_eq_left (le_max_left 1 (n : Int)), max_self]
  rfl

lemma effectiveWindow_bounds (n : Nat) (ws : ℚ) :
    1 ≤ effectiveWindow n ws ∧ (effectiveWindow n ws : Int) ≤ max 1 (n : Int) := by
  unfold effectiveWindow
  have h1 : (1 : Int) ≤ max 1 (min (toInt32 ws) (max 1 (n : Int))) := le_max_left _ _
  constructor
  · have h2 := Int.toNat_le_toNat h1
    exact h2
  · rw [Int.toNat_of_nonneg (le_trans zero_le_one h1)]
    exact max_le (le_max_left _ _) (min_le_right _ _)

lemma roll_fold_one (vals : List ℚ) : ∀ n : Nat,
    (List.range n).foldl (rollStep vals 1) (0, []) =
      ((if n = 0 then 0 else vals.getD (n - 1) 0),
       ((List.range n).map (fun j => vals.getD j 0)).reverse) := by
  intro n
  induction n with
  | zero => simp
  | succ n ih =>
    rw [List.range_succ, List.foldl_append, ih]
    simp only [List.foldl_cons, List.foldl_nil, rollStep, List.map_append,
      List.reverse_append]
    by_cases hn : n = 0
    · subst hn
      simp [div_one]
    · have h1 : 1 ≤ n := Nat.one_le_iff_ne_zero.mpr hn
      simp [hn, h1, div_one, add_sub_cancel_left]

lemma range_map_getD (l : List ℚ) :
    (List.range l.length).map (fun j => l.getD j 0) = l := by
  induction l with
  | nil => rfl
  | cons a t ih =>
    rw [List.length_cons, List.range_succ_eq_map, List.map_cons, List.map_map]
    have hf : ((fun j => (a :: t).getD j 0) ∘ Nat.succ) = (fun j => t.getD j 0) := by
      funext j
      rfl
    rw [hf, ih]
    rfl

lemma doRollingAverage_one (s : ThinState) :
    doRollingAverage s 1 = s.values.map (fun v => v * s.scale + s.bias * (1/1000)) := by
  rw [doRollingAverage_eq, effectiveWindow_one, roll_fold_one]
  rw [List.reverse_reverse, range_map_getD]

lemma sqDev_fold_nonneg (m : ℚ) : ∀ (l : List ℚ) (a : ℚ), 0 ≤ a →
    0 ≤ l.foldl (fun sq v => sq + (v - m) * (v - m)) a := by
  intro l
  induction l with
  | nil => intro a ha; exact ha
  | cons v t ih =>
    intro a ha
    exact ih _ (add_nonneg ha (mul_self_nonneg _))

lemma sqDevOf_nonneg (l : List ℚ) (m : ℚ) : 0 ≤ sqDevOf l m :=
  sqDev_fold_nonneg m l 0 le_rfl

lemma varianceOf_nonneg (l : List ℚ) : 0 ≤ varianceOf l := by
  unfold varianceOf
  split
  · exact div_nonneg (sqDevOf_nonneg l (meanOf l)) (Nat.cast_nonneg _)
  · exact le_rfl

lemma stdOf_nonneg (sf : ℚ → ℚ) (hsf : ∀ q : ℚ, 0 < q → 0 ≤ sf q) (l : List ℚ) :
    0 ≤ stdOf sf l := by
  unfold stdOf
  split
  · next h => exact hsf _ h
  · exact zero_le_one

lemma foldl_add_replicate (c : ℚ) : ∀ (n : Nat) (a : ℚ),
    (List.replicate n c).foldl (· + ·) a = a + n * c := by
  intro n
  induction n with
  | zero => intro a; simp
  | succ n ih =>
    intro a
    rw [List.replicate_succ, List.foldl_cons, ih]
    push_cast
    ring

lemma meanOf_replicate (c : ℚ) (n : Nat) (hn : 0 < n) :
    meanOf (List.replicate n c) = c := by
  unfold meanOf sumOf
  rw [List.length_replicate, if_pos hn, foldl_add_replicate c n 0, zero_add]
  exact mul_div_cancel_left₀ c (Nat.cast_ne_zero.mpr hn.ne')

lemma sqDev_fold_self (c : ℚ) : ∀ (n : Nat) (a : ℚ),
    (List.replicate n c).foldl (fun sq v => sq + (v - c) * (v - c)) a = a := by
  intro n
  induction n with
  | zero => intro a; rfl
  | succ n ih =>
    intro a
    rw [List.replicate_succ, List.foldl_cons]
    rw [show a + (c - c) * (c - c) = a by ring]
    exact ih a

lemma varianceOf_replicate (c : ℚ) (n : Nat) : varianceOf (List.replicate n c) = 0 := by
  unfold varianceOf
  split
  · next h =>
    rw [List.length_replicate] at h
    rw [meanOf_replicate c n (lt_trans one_pos h)]
    unfold sqDevOf
    rw [sqDev_fold_self c n 0, zero_div]
  · rfl

lemma stdOf_replicate (sf : ℚ → ℚ) (c : ℚ) (n : Nat) :
    stdOf sf (List.replicate n c) = 1 := by
  unfold stdOf
  rw [varianceOf_replicate]
  simp

lemma scrambleDeltas_length (seed : ℚ) (n : Nat) : (scrambleDeltas seed n).length = n :=
  scrambleDeltasFrom_length n _ 0

lemma doScramble_values_length (s : ThinState) (seed : ℚ) :
    (doScramble s seed).values.length = s.values.length := by
  rw [doScramble_spec]
  simp [List.length_zipWith, scrambleDeltas_length]

lemma diffuse_fold_length (sc b : ℚ) (n : Nat) : ∀ (l : List Nat) (vals : List ℚ),
    vals.length = n → ((l.foldl (fun vals _ => diffuseStep sc b n vals) vals)).length = n := by
  intro l
  induction l with
  | nil => intro vals h; exact h
  | cons i t ih =>
    intro vals h
    rw [List.foldl_cons]
    exact ih _ (by simp [diffuseStep])

lemma doSimulate_values_length (s : ThinState) (it : ℚ) :
    (doSimulate s it).2.values.length = s.values.length := by
  unfold doSimulate
  by_cases h : s.values.length = 0
  · simp [h]
  · simp only [h, if_neg, ite_false]
    exact diffuse_fold_length s.scale s.bias s.values.length _ s.values rfl

lemma stepThin_values_length (sf : ℚ → ℚ) (op : Op) (s : ThinState) :
    ((stepThin sf s op).2).values.length = s.values.length := by
  cases op with
  | checksum => rfl
  | normalize => simp [stepThin, doNormalizeInPlace]
  | rolling w => rfl
  | format => rfl
  | scramble seed => exact doScramble_values_length s seed
  | simulate it => exact doSimulate_values_length s it

/-- Claim C1: for every identical tuple of constructor arguments (and the
same construction-time clock reading) and every identical sequence of
operation calls, the class strategy, the per-instance-closure strategy and
the thin-wrapper strategy produce identical results after each call — the
same checksum integers, formatSummary strings, rollingAverage and simulate
outputs — and identical mutated values/bias/scale state. -/
theorem C1_strategies_byte_identical (sf : ℚ → ℚ) (id : Int) (name : String)
    (values : List ℚ) (bias scale : ℚ) (tag : String) (now : Int) (ops : List Op) :
    (runCls sf (HeavyThing.make id name values bias scale tag now) ops).1 =
      (runThin sf (createHeavyThingThin id name values bias scale tag now) ops).1
    ∧ (runCls sf (HeavyThing.make id name values bias scale tag now) ops).2.toThin =
      (runThin sf (createHeavyThingThin id name values bias scale tag now) ops).2
    ∧ (runFac sf (Factory.createHeavyThing id name values bias scale tag now) ops).1 =
      (runThin sf (createHeavyThingThin id name values bias scale tag now) ops).1
    ∧ (runFac sf (Factory.createHeavyThing id name values bias scale tag now) ops).2.toThin =
      (runThin sf (createHeavyThingThin id name values bias scale tag now) ops).2 := by
  have hc := runCls_toThin sf ops (HeavyThing.make id name values bias scale tag now)
  have hf := runFac_toThin sf ops (Factory.createHeavyThing id name values bias scale tag now)
  exact ⟨hc.1, hc.2, hf.1, hf.2⟩

/-- Claim C3 counterexample: two state records with values sequences of the
same length but different contents, scrambled with the same seed, do not
produce the same resulting values sequence — the result depends on the
initial values, not only on the seed and the length. -/
theorem C3_counterexample :
    (ThinState.mk 1 "" [0] 0 1 0 "").values.length =
      (ThinState.mk 1 "" [1] 0 1 0 "").values.length
    ∧ (doScramble (ThinState.mk 1 "" [0] 0 1 0 "") 1).values ≠
      (doScramble (ThinState.mk 1 "" [1] 0 1 0 "") 1).values := by
  refine ⟨rfl, fun heq => ?_⟩
  have h1 : (doScramble (ThinState.mk 1 "" [0] 0 1 0 "") 1).values =
      [0 + deltaOf (xsRound (warm8 (scrambleInit 1))) 0] := by
    rw [doScramble_spec]
    rfl
  have h2 : (doScramble (ThinState.mk 1 "" [1] 0 1 0 "") 1).values =
      [1 + deltaOf (xsRound (warm8 (scrambleInit 1))) 0] := by
    rw [doScramble_spec]
    rfl
  rw [h1, h2] at heq
  simp at heq

/-- Claim C3 (amended): scramble is deterministic in the sense the code
realizes — the perturbation added to each value, the bias adjustment and the
scale factor are functions of the seed and the values length only, so states
with equal values, bias, scale and length give identical results; the result
is independent of the invoking strategy; and seed 0 behaves exactly as the
fixed non-zero fallback constant 2463534242. -/
theorem C3_amended_scramble_deterministic (s : ThinState) (seed : ℚ) :
    (doScramble s seed).values =
      List.zipWith (· + ·) s.values (scrambleDeltas seed s.values.length)
    ∧ (doScramble s seed).bias = s.bias + scrambleBiasAdj seed s.values.length
    ∧ (doScramble s seed).scale = s.scale * scrambleScaleFac seed s.values.length
    ∧ doScramble s 0 = doScramble s 2463534242
    ∧ (∀ c : HeavyThing, (HeavyThing.scramble c seed).toThin = doScramble c.toThin seed)
    ∧ (∀ f : FactoryState, (Factory.scramble f seed).toThin = doScramble f.toThin seed) := by
  refine ⟨?_, ?_, ?_, ?_, fun c => rfl, fun f => rfl⟩
  · rw [doScramble_spec]
  · rw [doScramble_spec]
  · rw [doScramble_spec]
  · have hinit : scrambleInit 0 = scrambleInit 2463534242 := by decide
    rw [doScramble_spec s 0, doScramble_spec s 2463534242]
    unfold scrambleDeltas scrambleBiasAdj scrambleScaleFac scrambleFinalX
    rw [hinit]

/-- Claim C5: normalizeInPlace never divides by zero — the divisor
`std + 1e-6` is strictly positive for every state record (any square root
returning a nonnegative value on positive input), every element of the
values after the call lies in `[-8, 8]`, and on a constant-valued sequence
the variance is 0 so the standard deviation is taken as 1. -/
theorem C5_normalize_no_div_by_zero (sf : ℚ → ℚ)
    (hsf : ∀ q : ℚ, 0 < q → 0 ≤ sf q) (s : ThinState) :
    0 < stdOf sf s.values + 1/1000000
    ∧ (∀ v ∈ (doNormalizeInPlace sf s).values, -8 ≤ v ∧ v ≤ 8)
    ∧ (∀ (c : ℚ) (n : Nat), stdOf sf (List.replicate n c) = 1) := by
  refine ⟨?_, ?_, fun c n => stdOf_replicate sf c n⟩
  · exact add_pos_of_nonneg_of_pos (stdOf_nonneg sf hsf s.values) (by norm_num)
  · intro v hv
    simp only [doNormalizeInPlace] at hv
    rcases List.mem_map.mp hv with ⟨u, hu, rfl⟩
    exact ⟨le_max_left _ _, max_le (by norm_num) (min_le_left _ _)⟩

/-- Claim C5 witness: the theorem applied at a concrete square-root function
and a concrete two-element constant state. -/
theorem C5_witness :
    (∀ q : ℚ, 0 < q → (0 : ℚ) ≤ 0)
    ∧ (0 < stdOf (fun _ => 0) (ThinState.mk 1 "a" [2, 2] 0 1 0 "t").values + 1/1000000
       ∧ (∀ v ∈ (doNormalizeInPlace (fun _ => 0) (ThinState.mk 1 "a" [2, 2] 0 1 0 "t")).values,
            -8 ≤ v ∧ v ≤ 8)
       ∧ (∀ (c : ℚ) (n : Nat), stdOf (fun _ => 0) (List.replicate n c) = 1)) :=
  ⟨fun _ _ => le_rfl,
   C5_normalize_no_div_by_zero (fun _ => 0) (fun _ _ => le_rfl) (ThinState.mk 1 "a" [2, 2] 0 1 0 "t")⟩

/-- Claim C6: simulate with iteration count 0 behaves exactly as with 1
(the count is clamped to a minimum of 1), and on an empty values sequence
simulate returns 0 for every iteration count, without mutating the state. -/
theorem C6_simulate_clamp_and_empty :
    (∀ s : ThinState, doSimulate s 0 = doSimulate s 1)
    ∧ (∀ (id : Int) (name : String) (bias scale : ℚ) (createdAt : Int) (tag : String) (k : ℚ),
        doSimulate (ThinState.mk id name [] bias scale createdAt tag) k =
          (0, ThinState.mk id name [] bias scale createdAt tag)) := by
  constructor
  · intro s
    simp only [doSimulate]
    rw [show (max 1 (toInt32 0)).toNat = (max 1 (toInt32 1)).toNat from by decide]
  · intro id name bias scale createdAt tag k
    rfl

/-- Claim C7: rollingAverage with window 1 returns a list of the same length
as values whose entries are `value * scale + bias * 0.001`; the effective
window is clamped into `[1, max 1 n]` for every windowSize argument; and the
call does not mutate the state. -/
theorem C7_rolling_average (s : ThinState) (ws : ℚ) (sf : ℚ → ℚ) :
    doRollingAverage s 1 = s.values.map (fun v => v * s.scale + s.bias * (1/1000))
    ∧ (doRollingAverage s 1).length = s.values.length
    ∧ 1 ≤ effectiveWindow s.values.length ws
    ∧ (effectiveWindow s.values.length ws : Int) ≤ max 1 (s.values.length : Int)
    ∧ (stepThin sf s (Op.rolling ws)).2 = s := by
  refine ⟨doRollingAverage_one s, ?_, (effectiveWindow_bounds _ ws).1,
    (effectiveWindow_bounds _ ws).2, rfl⟩
  rw [doRollingAverage_one s, List.length_map]

/-- Claim C8: checksum is a pure function of the state — two successive
calls without intervening mutation return the same integer and leave the
state unchanged; formatSummary is the newline join of exactly ten lines,
each prefixed by the two-hex-digit zero-padded line index and a bar, its
last line carrying exactly the integer a direct checksum call returns; and
formatSummary mutates nothing. -/
theorem C8_checksum_pure_format_lines (sf : ℚ → ℚ) (s : ThinState) :
    runThin sf s [Op.checksum, Op.checksum] =
      ([Res.rInt (doChecksum s), Res.rInt (doChecksum s)], s)
    ∧ (stepThin sf s Op.format).2 = s
    ∧ doFormatSummary s = String.intercalate "\n" (summaryLines s)
    ∧ (summaryLines s).length = 10
    ∧ summaryLines s =
        (List.range 10).map (fun i => hex2 i ++ "|" ++ (summaryFields s).getD i "")
    ∧ (summaryFields s).getD 9 "" = "checksum=" ++ toString (doChecksum s)
    ∧ hex2 0 = "00" ∧ hex2 9 = "09" := by
  refine ⟨rfl, rfl, rfl, rfl, rfl, rfl, by decide, by decide⟩

/-- Claim C9: no kernel operation changes the length of the values sequence,
whichever strategy's state record it is applied to and whatever its
arguments are. -/
theorem C9_values_length_invariant (sf : ℚ → ℚ) (op : Op) (s : ThinState)
    (c : HeavyThing) (f : FactoryState) :
    ((stepThin sf s op).2).values.length = s.values.length
    ∧ ((stepCls sf c op).2).values.length = c.values.length
    ∧ ((stepFac sf f op).2).values.length = f.values.length := by
  refine ⟨stepThin_values_length sf op s, ?_, ?_⟩
  · have h := (stepCls_toThin sf c op).2
    have hv : ((stepCls sf c op).2).values = ((stepCls sf c op).2.toThin).values := rfl
    rw [hv, h]
    exact stepThin_values_length sf op c.toThin
  · have h := (stepFac_toThin sf f op).2
    have hv : ((stepFac sf f op).2).values = ((stepFac sf f op).2.toThin).values := rfl
    rw [hv, h]
    exact stepThin_values_length sf op f.toThin

/-- Claim C2 (code divergence): in the snapshot-capture procedure, when the
enable request fails, the session-release steps (disable, disconnect) are
not attempted and the stream is not closed; when the capture request fails,
the stream is likewise never closed and the session never released; only on
full success does the ordered trace end the session disabled and closed,
with the stream closed only after the capture completed. -/
theorem C2_release_skipped_on_failure :
    (takeHeapSnapshot ⟨false, true, true⟩).1 = Except.error "HeapProfiler.enable"
    ∧ SnapAct.postDisable ∉ (takeHeapSnapshot ⟨false, true, true⟩).2
    ∧ SnapAct.disconnect ∉ (takeHeapSnapshot ⟨false, true, true⟩).2
    ∧ SnapAct.streamEnd ∉ (takeHeapSnapshot ⟨false, true, true⟩).2
    ∧ SnapAct.postDisable ∉ (takeHeapSnapshot ⟨true, false, true⟩).2
    ∧ SnapAct.streamEnd ∉ (takeHeapSnapshot ⟨true, false, true⟩).2
    ∧ SnapAct.disconnect ∉ (takeHeapSnapshot ⟨true, true, false⟩).2
    ∧ (takeHeapSnapshot ⟨true, true, true⟩).2 =
        [SnapAct.connect, SnapAct.handlerOn, SnapAct.postEnable, SnapAct.postTake,
         SnapAct.handlerOff, SnapAct.streamEnd, SnapAct.postDisable, SnapAct.disconnect] := by
  refine ⟨rfl, ?_, ?_, ?_, ?_, ?_, ?_, rfl⟩ <;> decide

/-- Claim C4: population generation is deterministic — the i-th instance of
`makeInstances` carries id `i + 1`, the hexadecimal name, the
alpha/beta/gamma tag cycle by `i mod 3`, a 64-element value sequence that is
the xorshift32 stream seeded from the id (with the 123456789 fallback when
the seed pattern is zero) mapped into `[-1, 1]`, bias `(i mod 7) * 0.01` and
scale `1 + (i mod 5) * 0.01`; the first instance's values are exactly the
stream seeded with 1. -/
theorem C4_population_deterministic (approach : String) (N i : Nat) (h : i < N) :
    (makeInstances approach N)[i]? = some (strategyUsed approach, seedFor i)
    ∧ (seedFor i).id = (i : Int) + 1
    ∧ (seedFor i).name = "obj_" ++ natToHex (i + 1)
    ∧ (seedFor i).tag =
        (if i % 3 = 0 then "alpha" else if i % 3 = 1 then "beta" else "gamma")
    ∧ (seedFor i).values = (xorshiftStream (seedPat ((i : Int) + 1)) 64).map drawToValue
    ∧ (seedFor i).values.length = 64
    ∧ (seedFor i).bias = ((i % 7 : Nat) : ℚ) * (1/100)
    ∧ (seedFor i).scale = 1 + ((i % 5 : Nat) : ℚ) * (1/100)
    ∧ (seedFor 0).values = (xorshiftStream 1 64).map drawToValue := by
  refine ⟨?_, rfl, rfl, rfl, ?_, ?_, rfl, rfl, ?_⟩
  · unfold makeInstances
    simp [List.getElem?_map, List.getElem?_range, h]
  · exact generateInitialValues_eq_stream _ 64
  · rw [show (seedFor i).values = generateInitialValues ((i : Int) + 1) 64 from rfl,
      generateInitialValues_eq_stream, List.length_map, xorshiftStream_length]
  · rw [show (seedFor 0).values = generateInitialValues 1 64 from rfl,
      generateInitialValues_eq_stream, show seedPat 1 = 1 from by decide]

/-- Claim C4 witness: the theorem applied to a population of count 3 at
index 0. -/
theorem C4_witness :
    0 < 3
    ∧ ((makeInstances "class" 3)[0]? = some (strategyUsed "class", seedFor 0)
       ∧ (seedFor 0).id = ((0 : Nat) : Int) + 1
       ∧ (seedFor 0).name = "obj_" ++ natToHex (0 + 1)
       ∧ (seedFor 0).tag =
           (if 0 % 3 = 0 then "alpha" else if 0 % 3 = 1 then "beta" else "gamma")
       ∧ (seedFor 0).values =
           (xorshiftStream (seedPat (((0 : Nat) : Int) + 1)) 64).map drawToValue
       ∧ (seedFor 0).values.length = 64
       ∧ (seedFor 0).bias = ((0 % 7 : Nat) : ℚ) * (1/100)
       ∧ (seedFor 0).scale = 1 + ((0 % 5 : Nat) : ℚ) * (1/100)
       ∧ (seedFor 0).values = (xorshiftStream 1 64).map drawToValue) :=
  ⟨by decide, C4_population_deterministic "class" 3 0 (by decide)⟩

/-- Claim C10: the CLI parser accepts "factory-prototype" as an approach
value, yet the `makeInstances` dispatch sends it — like every value other
than "class" and "factory" — to the thin-wrapper constructor, and no
approach value ever selects the shared-prototype constructor. -/
theorem C10_factory_prototype_routes_thin (toNumber : String → Option ℚ)
    (h2 : toNumber "2" = some 2) :
    parseArgs toNumber ["--approach", "factory-prototype", "--count", "2"] =
      some ("factory-prototype", 2)
    ∧ strategyUsed "factory-prototype" = Strategy.thin
    ∧ (∀ approach : String, strategyUsed approach ≠ Strategy.proto)
    ∧ (∀ count : Nat, (makeInstances "factory-prototype" count).map Prod.fst =
        List.replicate count Strategy.thin) := by
  refine ⟨?_, by decide, ?_, ?_⟩
  · simp [parseArgs, parseArgsLoop, h2,
      show ((Rat.floor (2 : ℚ))).toNat = 2 from by decide,
      show (0 : ℚ) < 2 from by norm_num]
  · intro a
    unfold strategyUsed
    split
    · simp
    · split <;> simp
  · intro count
    unfold makeInstances
    rw [List.map_map]
    have hc : (Prod.fst ∘ fun i : Nat => (strategyUsed "factory-prototype", seedFor i)) =
        fun _ => Strategy.thin := by
      funext i
      rfl
    rw [hc]
    exact (List.map_const (List.range count) Strategy.thin).trans
      (by rw [List.length_range])

/-- Claim C10 witness: the theorem applied to a concrete number-conversion
function. -/
theorem C10_witness :
    ((fun v : String => if v = "2" then some (2 : ℚ) else none) "2" = some 2)
    ∧ (parseArgs (fun v : String => if v = "2" then some (2 : ℚ) else none)
        ["--approach", "factory-prototype", "--count", "2"] =
        some ("factory-prototype", 2)
       ∧ strategyUsed "factory-prototype" = Strategy.thin
       ∧ (∀ approach : String, strategyUsed approach ≠ Strategy.proto)
       ∧ (∀ count : Nat, (makeInstances "factory-prototype" count).map Prod.fst =
           List.replicate count Strategy.thin)) :=
  ⟨by simp,
   C10_factory_prototype_routes_thin (fun v => if v = "2" then some 2 else none) (by simp)⟩
